import Mathlib

/-!
Verification of the denormalized-counter / soft-delete consistency model of the
fit_share photo-sharing application.

Two storage backends are embedded:
* `PostgresStorage` (relational, drizzle-orm): tables are lists of rows, each
  soft-delete-capable table carries an `isDeleted` column.  A mutating method is a
  function `PgState → PgState × Bool` where the boolean records whether the call
  aborted with a runtime `TypeError` (a JavaScript null dereference such as
  reading `likeCount` of `undefined`).  Mutations issued before the faulting
  expression persist, because the methods run no transaction.
* `MemStorage` (in-process `Map`s): maps keyed by id are embedded as lists of
  records; `Map.set` on an existing key replaces in place, on a fresh key appends
  (JS `Map` preserves insertion order).  `createdAt` timestamps and the session
  store are not modelled; no claim mentions them.

Counter columns in the relational backend are embedded as `Int` (the SQL integer
column has no clamp and the code can drive it negative); the in-memory backend
guards every decrement with `> 0`, so its counters are `Nat`.
-/

namespace FitShare

/-! ## Relational backend: row types (shared/schema.ts, uuid variant) -/

structure PgUser where
  id : Nat
  username : String
  displayName : Option String
  bio : Option String
  avatarUrl : Option String
  followerCount : Int
  isDeleted : Bool
deriving DecidableEq

structure PgPhoto where
  id : Nat
  userId : Nat
  imageUrl : String
  caption : Option String
  likeCount : Int
  commentCount : Int
  isDeleted : Bool
deriving DecidableEq

structure PgComment where
  id : Nat
  userId : Nat
  photoId : Nat
  content : String
  likeCount : Int
  isDeleted : Bool
deriving DecidableEq

structure PgLike where
  userId : Nat
  photoId : Nat
  isDeleted : Bool
deriving DecidableEq

structure PgFollow where
  followerId : Nat
  followingId : Nat
  isDeleted : Bool
deriving DecidableEq

structure PgCommentLike where
  userId : Nat
  commentId : Nat
  isDeleted : Bool
deriving DecidableEq

structure PgState where
  users : List PgUser
  photos : List PgPhoto
  comments : List PgComment
  likes : List PgLike
  follows : List PgFollow
  commentLikes : List PgCommentLike
deriving DecidableEq

/-! ## Relational backend: the SELECT predicates used by the toggle methods -/

def isPairLike (u p : Nat) (l : PgLike) : Bool :=
  l.userId == u && l.photoId == p

def isPairFollow (f g : Nat) (x : PgFollow) : Bool :=
  x.followerId == f && x.followingId == g

def isPairCL (u c : Nat) (x : PgCommentLike) : Bool :=
  x.userId == u && x.commentId == c

/-- `hasLiked` select of `PostgresStorage.likePhoto`: rows for the pair,
deleted or not. -/
def pgHasLiked (s : PgState) (u p : Nat) : Nat :=
  s.likes.countP (isPairLike u p)

/-- `hasDeleted` select of `PostgresStorage.likePhoto`: soft-deleted rows for
the pair. -/
def pgHasDeleted (s : PgState) (u p : Nat) : Nat :=
  s.likes.countP (fun l => isPairLike u p l && l.isDeleted)

/-- `hasLiked` select of `PostgresStorage.likeComment`. -/
def pgCLHasLiked (s : PgState) (u c : Nat) : Nat :=
  s.commentLikes.countP (isPairCL u c)

/-- `hasDeleted` select of `PostgresStorage.likeComment`. -/
def pgCLHasDeleted (s : PgState) (u c : Nat) : Nat :=
  s.commentLikes.countP (fun x => isPairCL u c x && x.isDeleted)

/-! ## Relational backend: toggle methods -/

/-- `PostgresStorage.likePhoto`.  The three selects happen first; in the insert
branch the row is inserted before `photo.likeCount + 1` is evaluated, and in the
two update branches the likes update runs before the photos update, so when the
photo row is absent the likes mutation persists and the call then throws
(`true` in the second component). -/
def pgLikePhoto (u p : Nat) (s : PgState) : PgState × Bool :=
  let hasLiked := pgHasLiked s u p
  let hasDeleted := pgHasDeleted s u p
  let photo? := s.photos.find? (fun ph => ph.id == p)
  if hasLiked = 0 then
    let likes2 := s.likes ++ [{ userId := u, photoId := p, isDeleted := false }]
    match photo? with
    | none => ({ s with likes := likes2 }, true)
    | some photo =>
        ({ s with likes := likes2,
                  photos := s.photos.map (fun ph =>
                    if ph.id == p then { ph with likeCount := photo.likeCount + 1 } else ph) },
         false)
  else if hasDeleted ≠ 0 then
    let likes2 := s.likes.map (fun l =>
      if isPairLike u p l && l.isDeleted then { l with isDeleted := false } else l)
    match photo? with
    | none => ({ s with likes := likes2 }, true)
    | some photo =>
        ({ s with likes := likes2,
                  photos := s.photos.map (fun ph =>
                    if ph.id == p then { ph with likeCount := photo.likeCount + 1 } else ph) },
         false)
  else
    let likes2 := s.likes.map (fun l =>
      if isPairLike u p l && !l.isDeleted then { l with isDeleted := true } else l)
    match photo? with
    | none => ({ s with likes := likes2 }, true)
    | some photo =>
        ({ s with likes := likes2,
                  photos := s.photos.map (fun ph =>
                    if ph.id == p then { ph with likeCount := photo.likeCount - 1 } else ph) },
         false)

/-- `PostgresStorage.followUser`.  On an existing (even active) pair it
increments the counter and clears the flag; otherwise it inserts a fresh row and
increments.  When the followed user is absent, in the existing-pair branch the
call throws before mutating, in the insert branch after the row insert. -/
def pgFollowUser (f g : Nat) (s : PgState) : PgState × Bool :=
  let isFollower := s.follows.countP (isPairFollow f g)
  let user? := s.users.find? (fun x => x.id == g)
  if isFollower ≠ 0 then
    match user? with
    | none => (s, true)
    | some usr =>
        let s1 := { s with users := s.users.map (fun x : PgUser =>
          if x.id == g then { x with followerCount := usr.followerCount + 1 } else x) }
        ({ s1 with follows := s1.follows.map (fun x =>
            if isPairFollow f g x then { x with isDeleted := false } else x) },
         false)
  else
    let s1 := { s with follows := s.follows ++ [{ followerId := f, followingId := g, isDeleted := false }] }
    match user? with
    | none => (s1, true)
    | some usr =>
        ({ s1 with users := s1.users.map (fun x : PgUser =>
            if x.id == g then { x with followerCount := usr.followerCount + 1 } else x) },
         false)

/-- `PostgresStorage.unfollowUser`: unconditionally decrements the counter
(no existence check on the follow row, no clamp) and soft-deletes any pair
rows. -/
def pgUnfollowUser (f g : Nat) (s : PgState) : PgState × Bool :=
  match s.users.find? (fun x => x.id == g) with
  | none => (s, true)
  | some usr =>
      let s1 := { s with users := s.users.map (fun x : PgUser =>
        if x.id == g then { x with followerCount := usr.followerCount - 1 } else x) }
      ({ s1 with follows := s1.follows.map (fun x : PgFollow =>
          if isPairFollow f g x then { x with isDeleted := true } else x) },
       false)

/-- `PostgresStorage.likeComment`: same shape as `likePhoto` over
comments/commentLikes. -/
def pgLikeComment (u c : Nat) (s : PgState) : PgState × Bool :=
  let hasLiked := pgCLHasLiked s u c
  let hasDeleted := pgCLHasDeleted s u c
  let comment? := s.comments.find? (fun cm => cm.id == c)
  if hasLiked = 0 then
    let cls2 := s.commentLikes ++ [{ userId := u, commentId := c, isDeleted := false }]
    match comment? with
    | none => ({ s with commentLikes := cls2 }, true)
    | some comment =>
        ({ s with commentLikes := cls2,
                  comments := s.comments.map (fun cm =>
                    if cm.id == c then { cm with likeCount := comment.likeCount + 1 } else cm) },
         false)
  else if hasDeleted ≠ 0 then
    let cls2 := s.commentLikes.map (fun x =>
      if isPairCL u c x && x.isDeleted then { x with isDeleted := false } else x)
    match comment? with
    | none => ({ s with commentLikes := cls2 }, true)
    | some comment =>
        ({ s with commentLikes := cls2,
                  comments := s.comments.map (fun cm =>
                    if cm.id == c then { cm with likeCount := comment.likeCount + 1 } else cm) },
         false)
  else
    let cls2 := s.commentLikes.map (fun x =>
      if isPairCL u c x && !x.isDeleted then { x with isDeleted := true } else x)
    match comment? with
    | none => ({ s with commentLikes := cls2 }, true)
    | some comment =>
        ({ s with commentLikes := cls2,
                  comments := s.comments.map (fun cm =>
                    if cm.id == c then { cm with likeCount := comment.likeCount - 1 } else cm) },
         false)

/-- `PostgresStorage.unlikeComment`: physically deletes every pair row, then
runs the in-database decrement `likeCount = likeCount - 1` on the comment
(unconditional, no clamp, no existence check — never throws). -/
def pgUnlikeComment (u c : Nat) (s : PgState) : PgState × Bool :=
  let s1 := { s with commentLikes := s.commentLikes.filter (fun x => !(isPairCL u c x)) }
  ({ s1 with comments := s1.comments.map (fun cm =>
      if cm.id == c then { cm with likeCount := cm.likeCount - 1 } else cm) },
   false)

/-! ## Relational backend: observers -/

/-- The `likeCount` the code itself observes for a photo:
`const [photo] = await db.select... where id = photoId`. -/
def pgPhotoLikeCount (s : PgState) (p : Nat) : Option Int :=
  (s.photos.find? (fun ph => ph.id == p)).map (fun ph => ph.likeCount)

def pgUserFollowerCount (s : PgState) (g : Nat) : Option Int :=
  (s.users.find? (fun x => x.id == g)).map (fun x => x.followerCount)

def pgCommentLikeCount (s : PgState) (c : Nat) : Option Int :=
  (s.comments.find? (fun cm => cm.id == c)).map (fun cm => cm.likeCount)

/-- ACTIVE like rows for a photo (all actors). -/
def activeLikes (s : PgState) (p : Nat) : Nat :=
  s.likes.countP (fun l => l.photoId == p && !l.isDeleted)

/-- ACTIVE comment-like rows for a comment (all actors). -/
def activeCommentLikes (s : PgState) (c : Nat) : Nat :=
  s.commentLikes.countP (fun x => x.commentId == c && !x.isDeleted)

/-- The per-pair relationship state, classified exactly the way the code's
branch conditions classify it. -/
inductive RelState where
  | absent
  | active
  | inactive
deriving DecidableEq

def likePairState (s : PgState) (u p : Nat) : RelState :=
  if pgHasLiked s u p = 0 then .absent
  else if pgHasDeleted s u p ≠ 0 then .inactive
  else .active

def commentPairState (s : PgState) (u c : Nat) : RelState :=
  if pgCLHasLiked s u c = 0 then .absent
  else if pgCLHasDeleted s u c ≠ 0 then .inactive
  else .active

/-! ## In-memory backend: record types (server/storage.ts over shared/schema.ts,
serial-id variant; relationship rows carry no isDeleted column) -/

structure MemUser where
  id : Nat
  username : String
  password : String
  displayName : Option String
  bio : Option String
  avatarUrl : Option String
  followerCount : Nat
deriving DecidableEq

structure MemPhoto where
  id : Nat
  userId : Nat
  imageUrl : String
  caption : Option String
  likeCount : Nat
  commentCount : Nat
deriving DecidableEq

structure MemFollow where
  id : Nat
  followerId : Nat
  followingId : Nat
deriving DecidableEq

structure MemLike where
  id : Nat
  userId : Nat
  photoId : Nat
deriving DecidableEq

structure MemComment where
  id : Nat
  userId : Nat
  photoId : Nat
  content : String
  likeCount : Nat
deriving DecidableEq

structure MemCommentLike where
  id : Nat
  userId : Nat
  commentId : Nat
deriving DecidableEq

structure MemNotification where
  id : Nat
  userId : Nat
  actorId : Nat
  ntype : String
  photoId : Option Nat
  commentId : Option Nat
  read : Bool
deriving DecidableEq

structure MemState where
  users : List MemUser
  photos : List MemPhoto
  follows : List MemFollow
  likes : List MemLike
  comments : List MemComment
  commentLikes : List MemCommentLike
  notifications : List MemNotification
  currentId : Nat
  currentPhotoId : Nat
  currentCommentId : Nat
  currentFollowId : Nat
  currentNotificationId : Nat
deriving DecidableEq

/-- The `MemStorage` constructor: every map empty, every id counter 1. -/
def memInit : MemState :=
  { users := [], photos := [], follows := [], likes := [], comments := [],
    commentLikes := [], notifications := [],
    currentId := 1, currentPhotoId := 1, currentCommentId := 1,
    currentFollowId := 1, currentNotificationId := 1 }

/-- `Map.set` on a map keyed by `id`: replace when the key exists, else append. -/
def setUserById (l : List MemUser) (v : MemUser) : List MemUser :=
  if l.any (fun x => x.id == v.id) then
    l.map (fun x => if x.id == v.id then v else x)
  else l ++ [v]

def setPhotoById (l : List MemPhoto) (v : MemPhoto) : List MemPhoto :=
  if l.any (fun x => x.id == v.id) then
    l.map (fun x => if x.id == v.id then v else x)
  else l ++ [v]

def setCommentById (l : List MemComment) (v : MemComment) : List MemComment :=
  if l.any (fun x => x.id == v.id) then
    l.map (fun x => if x.id == v.id then v else x)
  else l ++ [v]

/-- JavaScript `a || b` on a string against a nullable string
(empty string is falsy). -/
def jsOrString (a : String) (b : Option String) : Option String :=
  if a = "" then b else some a

/-! ## In-memory backend: methods -/

def memCreateUser (username password : String) (s : MemState) : MemState :=
  let user : MemUser :=
    { id := s.currentId, username := username, password := password,
      displayName := none, bio := none, avatarUrl := none, followerCount := 0 }
  { s with users := setUserById s.users user, currentId := s.currentId + 1 }

/-- `updateUserProfile`; when the user is missing the method throws before any
mutation, so the state is unchanged. -/
def memUpdateUserProfile (userId : Nat) (bio avatarUrl displayName : String) (s : MemState) : MemState :=
  match s.users.find? (fun x => x.id == userId) with
  | none => s
  | some user =>
      let updatedUser : MemUser :=
        { user with bio := jsOrString bio user.bio,
                    avatarUrl := jsOrString avatarUrl user.avatarUrl,
                    displayName := jsOrString displayName user.displayName }
      { s with users := setUserById s.users updatedUser }

def memCreatePhoto (userId : Nat) (imageUrl : String) (caption : Option String) (s : MemState) : MemState :=
  let photo : MemPhoto :=
    { id := s.currentPhotoId, userId := userId, imageUrl := imageUrl,
      caption := caption, likeCount := 0, commentCount := 0 }
  { s with photos := setPhotoById s.photos photo, currentPhotoId := s.currentPhotoId + 1 }

/-- `MemStorage.likePhoto`: when the photo exists, bump its `likeCount`;
no Like row is ever created and no prior like is checked. -/
def memLikePhoto (userId photoId : Nat) (s : MemState) : MemState :=
  match s.photos.find? (fun ph => ph.id == photoId) with
  | none => s
  | some photo =>
      { s with photos := setPhotoById s.photos { photo with likeCount := photo.likeCount + 1 } }

/-- `MemStorage.unlikePhoto`: decrement guarded by `likeCount > 0`
(clamps at 0). -/
def memUnlikePhoto (userId photoId : Nat) (s : MemState) : MemState :=
  match s.photos.find? (fun ph => ph.id == photoId) with
  | none => s
  | some photo =>
      if 0 < photo.likeCount then
        { s with photos := setPhotoById s.photos { photo with likeCount := photo.likeCount - 1 } }
      else s

def memIsFollowing (s : MemState) (followerId followingId : Nat) : Bool :=
  s.follows.any (fun x => x.followerId == followerId && x.followingId == followingId)

/-- `MemStorage.followUser`: early-returns when already following, else inserts
a Follow row and (when the followed user exists) bumps the counter. -/
def memFollowUser (followerId followingId : Nat) (s : MemState) : MemState :=
  if memIsFollowing s followerId followingId then s
  else
    let fl : MemFollow := { id := s.currentFollowId, followerId := followerId, followingId := followingId }
    let s1 := { s with follows := s.follows ++ [fl], currentFollowId := s.currentFollowId + 1 }
    match s1.users.find? (fun x => x.id == followingId) with
    | none => s1
    | some user =>
        { s1 with users := setUserById s1.users { user with followerCount := user.followerCount + 1 } }

/-- `MemStorage.unfollowUser`: finds the first matching Follow row, physically
deletes it from the map, and decrements the counter guarded by `> 0`. -/
def memUnfollowUser (followerId followingId : Nat) (s : MemState) : MemState :=
  match s.follows.find? (fun x => x.followerId == followerId && x.followingId == followingId) with
  | none => s
  | some fl =>
      let s1 := { s with follows := s.follows.filter (fun x => !(x.id == fl.id)) }
      match s1.users.find? (fun x => x.id == followingId) with
      | none => s1
      | some user =>
          if 0 < user.followerCount then
            { s1 with users := setUserById s1.users { user with followerCount := user.followerCount - 1 } }
          else s1

def memCreateComment (userId photoId : Nat) (content : String) (s : MemState) : MemState :=
  let comment : MemComment :=
    { id := s.currentCommentId, userId := userId, photoId := photoId,
      content := content, likeCount := 0 }
  let s1 := { s with comments := setCommentById s.comments comment,
                     currentCommentId := s.currentCommentId + 1 }
  match s1.photos.find? (fun ph => ph.id == photoId) with
  | none => s1
  | some photo =>
      { s1 with photos := setPhotoById s1.photos { photo with commentCount := photo.commentCount + 1 } }

/-- `MemStorage.likeComment`: bump only; no CommentLike row is created. -/
def memLikeComment (userId commentId : Nat) (s : MemState) : MemState :=
  match s.comments.find? (fun cm => cm.id == commentId) with
  | none => s
  | some comment =>
      { s with comments := setCommentById s.comments { comment with likeCount := comment.likeCount + 1 } }

def memUnlikeComment (userId commentId : Nat) (s : MemState) : MemState :=
  match s.comments.find? (fun cm => cm.id == commentId) with
  | none => s
  | some comment =>
      if 0 < comment.likeCount then
        { s with comments := setCommentById s.comments { comment with likeCount := comment.likeCount - 1 } }
      else s

def memCreateNotification (userId actorId : Nat) (ntype : String)
    (photoId commentId : Option Nat) (s : MemState) : MemState :=
  let n : MemNotification :=
    { id := s.currentNotificationId, userId := userId, actorId := actorId,
      ntype := ntype, photoId := photoId, commentId := commentId, read := false }
  { s with notifications := s.notifications ++ [n],
           currentNotificationId := s.currentNotificationId + 1 }

def memMarkNotificationAsRead (notificationId : Nat) (s : MemState) : MemState :=
  match s.notifications.find? (fun n => n.id == notificationId) with
  | none => s
  | some _ =>
      { s with notifications := s.notifications.map (fun n =>
          if n.id == notificationId then { n with read := true } else n) }

def memMarkAllNotificationsAsRead (userId : Nat) (s : MemState) : MemState :=
  { s with notifications := s.notifications.map (fun n =>
      if n.userId == userId then { n with read := true } else n) }

/-- `MemStorage.getLikedUsers`: ids of Like rows for the photo, looked up in the
users map, dropping misses. -/
def memGetLikedUsers (s : MemState) (photoId : Nat) : List MemUser :=
  (((s.likes.filter (fun l => l.photoId == photoId)).map (fun l => l.userId)).map
    (fun i => s.users.find? (fun u2 => u2.id == i))).filterMap id

/-- The mutating operations of the `IStorage` interface as implemented by
`MemStorage` (read-only methods do not change the state). -/
inductive MemOp where
  | createUser (username password : String)
  | updateUserProfile (userId : Nat) (bio avatarUrl displayName : String)
  | createPhoto (userId : Nat) (imageUrl : String) (caption : Option String)
  | likePhoto (userId photoId : Nat)
  | unlikePhoto (userId photoId : Nat)
  | followUser (followerId followingId : Nat)
  | unfollowUser (followerId followingId : Nat)
  | createComment (userId photoId : Nat) (content : String)
  | likeComment (userId commentId : Nat)
  | unlikeComment (userId commentId : Nat)
  | createNotification (userId actorId : Nat) (ntype : String) (photoId commentId : Option Nat)
  | markNotificationAsRead (notificationId : Nat)
  | markAllNotificationsAsRead (userId : Nat)
deriving DecidableEq

def applyMemOp (op : MemOp) (s : MemState) : MemState :=
  match op with
  | .createUser a b => memCreateUser a b s
  | .updateUserProfile a b c d => memUpdateUserProfile a b c d s
  | .createPhoto a b c => memCreatePhoto a b c s
  | .likePhoto a b => memLikePhoto a b s
  | .unlikePhoto a b => memUnlikePhoto a b s
  | .followUser a b => memFollowUser a b s
  | .unfollowUser a b => memUnfollowUser a b s
  | .createComment a b c => memCreateComment a b c s
  | .likeComment a b => memLikeComment a b s
  | .unlikeComment a b => memUnlikeComment a b s
  | .createNotification a b c d e => memCreateNotification a b c d e s
  | .markNotificationAsRead a => memMarkNotificationAsRead a s
  | .markAllNotificationsAsRead a => memMarkAllNotificationsAsRead a s

def applyMemOps : List MemOp → MemState → MemState
  | [], s => s
  | op :: rest, s => applyMemOps rest (applyMemOp op s)

/-! ## In-memory backend: observers -/

def memPhotoLikeCount (s : MemState) (p : Nat) : Option Nat :=
  (s.photos.find? (fun ph => ph.id == p)).map (fun ph => ph.likeCount)

def memUserFollowerCount (s : MemState) (g : Nat) : Option Nat :=
  (s.users.find? (fun x => x.id == g)).map (fun x => x.followerCount)

/-! ## Interleaving semantics for concurrent `PostgresStorage.likePhoto` calls

Each HTTP request runs `likePhoto` as a series of sequential awaits with no
locking; requests interleave at await boundaries.  One in-flight call is a
thread with a program counter: step 0 performs the three SELECTs (capturing
`hasLiked`, `hasDeleted` and the photo's `likeCount`), step 1 performs the like
row mutation chosen by the captured reads, step 2 writes the counter as
`captured likeCount ± 1` (or throws when the photo select was empty).  Grouping
several awaits into one atomic step only removes interleavings, so any schedule
of this machine corresponds to a real interleaving of the code. -/

structure LikeCall where
  userId : Nat
  photoId : Nat
  pc : Nat
  selLiked : Nat
  selDeleted : Nat
  selPhoto : Option Int
deriving DecidableEq

def likeCallStart (u p : Nat) : LikeCall :=
  { userId := u, photoId := p, pc := 0, selLiked := 0, selDeleted := 0, selPhoto := none }

def likeStep (s : PgState) (t : LikeCall) : PgState × LikeCall :=
  if t.pc = 0 then
    (s, { t with pc := 1,
                 selLiked := pgHasLiked s t.userId t.photoId,
                 selDeleted := pgHasDeleted s t.userId t.photoId,
                 selPhoto := pgPhotoLikeCount s t.photoId })
  else if t.pc = 1 then
    if t.selLiked = 0 then
      ({ s with likes := s.likes ++ [{ userId := t.userId, photoId := t.photoId, isDeleted := false }] },
       { t with pc := 2 })
    else if t.selDeleted ≠ 0 then
      ({ s with likes := s.likes.map (fun l =>
          if isPairLike t.userId t.photoId l && l.isDeleted then { l with isDeleted := false } else l) },
       { t with pc := 2 })
    else
      ({ s with likes := s.likes.map (fun l =>
          if isPairLike t.userId t.photoId l && !l.isDeleted then { l with isDeleted := true } else l) },
       { t with pc := 2 })
  else if t.pc = 2 then
    match t.selPhoto with
    | none => (s, { t with pc := 3 })
    | some c =>
        let delta : Int := if t.selLiked = 0 then 1 else if t.selDeleted ≠ 0 then 1 else -1
        ({ s with photos := s.photos.map (fun ph =>
            if ph.id == t.photoId then { ph with likeCount := c + delta } else ph) },
         { t with pc := 3 })
  else (s, t)

/-- Run a schedule: each entry names the thread that performs its next step. -/
def runSched : List Nat → PgState → List LikeCall → PgState × List LikeCall
  | [], s, ts => (s, ts)
  | i :: rest, s, ts =>
      match ts.get? i with
      | none => runSched rest s ts
      | some t =>
          let r := likeStep s t
          runSched rest r.1 (ts.set i r.2)

/-! ## Well-formedness of relational states

The application maintains at most one relationship row per (actor, target)
pair: a row is only ever inserted when the `hasLiked` select found none. -/

def likesWf (l : List PgLike) : Prop :=
  l.Pairwise (fun a b => ¬(a.userId = b.userId ∧ a.photoId = b.photoId))

def clWf (l : List PgCommentLike) : Prop :=
  l.Pairwise (fun a b => ¬(a.userId = b.userId ∧ a.commentId = b.commentId))

def pgTogglesWf (s : PgState) : Prop :=
  likesWf s.likes ∧ clWf s.commentLikes

/-- The counter invariant of the specification, for the Like and CommentLike
relations: every photo's `likeCount` (resp. comment's `likeCount`) equals the
number of its ACTIVE relationship rows. -/
def pgCounterInvariant (s : PgState) : Prop :=
  (∀ ph ∈ s.photos, ph.likeCount = (activeLikes s ph.id : Int)) ∧
  (∀ cm ∈ s.comments, cm.likeCount = (activeCommentLikes s cm.id : Int))

/-! ## Generic counting lemmas -/

theorem countP_le_of_imp {α : Type} (p q : α → Bool) (l : List α)
    (h : ∀ a ∈ l, p a = true → q a = true) : l.countP p ≤ l.countP q := by
  induction l with
  | nil => simp
  | cons a t ih =>
      have ht := ih (fun b hb hpb => h b (List.mem_cons_of_mem a hb) hpb)
      by_cases hp : p a = true
      · have hq := h a (List.mem_cons_self a t) hp
        rw [List.countP_cons, List.countP_cons, if_pos hp, if_pos hq]
        omega
      · rw [List.countP_cons, List.countP_cons, if_neg hp]
        by_cases hq : q a = true
        · rw [if_pos hq]; omega
        · rw [if_neg hq]; omega

theorem countP_split {α : Type} (p r : α → Bool) (l : List α) :
    l.countP p = l.countP (fun a => p a && r a) + l.countP (fun a => p a && !r a) := by
  induction l with
  | nil => simp
  | cons a t ih =>
      simp only [List.countP_cons]
      by_cases hp : p a = true <;> by_cases hr : r a = true <;>
        simp [hp, hr] <;> omega

theorem countP_map_eq {α : Type} (f : α → α) (act : α → Bool) (l : List α)
    (h : ∀ a ∈ l, act (f a) = act a) : (l.map f).countP act = l.countP act := by
  induction l with
  | nil => simp
  | cons a t ih =>
      simp only [List.map_cons, List.countP_cons,
        h a (List.mem_cons_self a t),
        ih (fun b hb => h b (List.mem_cons_of_mem a hb))]

theorem countP_map_flip {α : Type} (f : α → α) (sel act : α → Bool) (l : List α)
    (hfix : ∀ a, sel a = false → f a = a)
    (hflip : ∀ a, sel a = true → act (f a) = true)
    (hdisj : ∀ a, sel a = true → act a = false) :
    (l.map f).countP act = l.countP act + l.countP sel := by
  induction l with
  | nil => simp
  | cons a t ih =>
      simp only [List.map_cons, List.countP_cons]
      by_cases hs : sel a = true
      · simp only [hflip a hs, hdisj a hs, hs]
        simp only [if_true, Bool.false_eq_true, if_false]
        omega
      · have hsa : sel a = false := by revert hs; cases sel a <;> simp
        rw [hfix a hsa, hsa]
        simp only [Bool.false_eq_true, if_false]
        omega

theorem countP_map_drop {α : Type} (f : α → α) (sel act : α → Bool) (l : List α)
    (hfix : ∀ a, sel a = false → f a = a)
    (hdrop : ∀ a, sel a = true → act (f a) = false)
    (hsub : ∀ a, sel a = true → act a = true) :
    (l.map f).countP act + l.countP sel = l.countP act := by
  induction l with
  | nil => simp
  | cons a t ih =>
      simp only [List.map_cons, List.countP_cons]
      by_cases hs : sel a = true
      · simp only [hdrop a hs, hsub a hs, hs]
        simp only [if_true, Bool.false_eq_true, if_false]
        omega
      · have hsa : sel a = false := by revert hs; cases sel a <;> simp
        rw [hfix a hsa, hsa]
        simp only [Bool.false_eq_true, if_false]
        omega

theorem countP_le_one_of_pairwise {α : Type} (p : α → Bool) (l : List α)
    (h : l.Pairwise (fun a b => ¬(p a = true ∧ p b = true))) : l.countP p ≤ 1 := by
  induction l with
  | nil => simp
  | cons a t ih =>
      rw [List.pairwise_cons] at h
      by_cases hp : p a = true
      · have hzero : t.countP p = 0 := by
          rw [List.countP_eq_zero]
          intro b hb hpb
          exact h.1 b hb ⟨hp, hpb⟩
        simp [List.countP_cons, hp, hzero]
      · rw [List.countP_cons, if_neg hp]
        have := ih h.2
        omega

theorem find?_map_update {α : Type} (f : α → α) (q : α → Bool) (l : List α)
    (hpres : ∀ x, q (f x) = q x) : (l.map f).find? q = (l.find? q).map f := by
  induction l with
  | nil => simp
  | cons a t ih =>
      by_cases hq : q a = true
      · simp [List.find?_cons, hpres a, hq]
      · have hqa : q a = false := by revert hq; cases q a <;> simp
        simp [List.find?_cons, hpres a, hqa, ih]

/-! ## Step lemmas: `pgLikePhoto` preserves well-formedness and the counter
invariant, and leaves the comment-side tables untouched -/

theorem pgLikePhoto_comments_eq (u p : Nat) (s : PgState) :
    ((pgLikePhoto u p s).1).comments = s.comments := by
  simp only [pgLikePhoto]
  repeat' split
  all_goals rfl

theorem pgLikePhoto_commentLikes_eq (u p : Nat) (s : PgState) :
    ((pgLikePhoto u p s).1).commentLikes = s.commentLikes := by
  simp only [pgLikePhoto]
  repeat' split
  all_goals rfl

theorem likesWf_map (f : PgLike → PgLike)
    (hu : ∀ l, (f l).userId = l.userId) (hp : ∀ l, (f l).photoId = l.photoId)
    (l : List PgLike) (h : likesWf l) : likesWf (l.map f) := by
  unfold likesWf at h ⊢
  refine List.Pairwise.map f ?_ h
  intro a b hab
  rw [hu, hu, hp, hp]
  exact hab

theorem likesWf_insert (u p : Nat) (l : List PgLike)
    (h : likesWf l) (hzero : l.countP (isPairLike u p) = 0) :
    likesWf (l ++ [{ userId := u, photoId := p, isDeleted := false }]) := by
  unfold likesWf at h ⊢
  rw [List.pairwise_append]
  refine ⟨h, by simp, ?_⟩
  intro a ha b hb
  simp only [List.mem_singleton] at hb
  subst hb
  have hnp := List.countP_eq_zero.mp hzero a ha
  intro hcon
  apply hnp
  simp [isPairLike, hcon.1, hcon.2]


theorem bool_and_split {a b : Bool} (h : (a && b) = true) : a = true ∧ b = true := by
  simp at h
  exact h

theorem isPairLike_parts {u p : Nat} {l : PgLike} (h : isPairLike u p l = true) :
    l.userId = u ∧ l.photoId = p := by
  simp [isPairLike] at h
  exact h

theorem isPairCL_parts {u c : Nat} {x : PgCommentLike} (h : isPairCL u c x = true) :
    x.userId = u ∧ x.commentId = c := by
  simp [isPairCL] at h
  exact h

theorem pgLikePhoto_preserves (u p : Nat) (s : PgState)
    (hlw : likesWf s.likes)
    (hphoto : ∀ ph ∈ s.photos, ph.likeCount = (activeLikes s ph.id : Int)) :
    likesWf ((pgLikePhoto u p s).1).likes ∧
    ∀ ph ∈ ((pgLikePhoto u p s).1).photos,
      ph.likeCount = (activeLikes (pgLikePhoto u p s).1 ph.id : Int) := by
  simp only [activeLikes] at hphoto ⊢
  by_cases h1 : pgHasLiked s u p = 0
  · -- ABSENT: insert a fresh active row, counter +1
    cases hfind : s.photos.find? (fun ph => ph.id == p) with
    | none =>
        have hs : (pgLikePhoto u p s).1 =
            { s with likes := s.likes ++ [{ userId := u, photoId := p, isDeleted := false }] } := by
          simp [pgLikePhoto, h1, hfind]
        rw [hs]
        constructor
        · exact likesWf_insert u p s.likes hlw h1
        · intro ph hph
          have hne : ph.id ≠ p := by
            have := List.find?_eq_none.mp hfind ph hph
            simpa using this
          have hbe : (p == ph.id) = false := by
            simp [Ne.symm hne]
          show ph.likeCount = _
          rw [List.countP_append]
          have hrow : List.countP (fun l : PgLike => l.photoId == ph.id && !l.isDeleted)
              [{ userId := u, photoId := p, isDeleted := false }] = 0 := by
            simp [List.countP_cons, hbe]
          rw [hrow]
          simpa using hphoto ph hph
    | some photo =>
        have hs : (pgLikePhoto u p s).1 =
            { s with likes := s.likes ++ [{ userId := u, photoId := p, isDeleted := false }],
                     photos := s.photos.map (fun ph =>
                       if ph.id == p then { ph with likeCount := photo.likeCount + 1 } else ph) } := by
          simp [pgLikePhoto, h1, hfind]
        have hpid : photo.id = p := by simpa using List.find?_some hfind
        have hpmem := List.mem_of_find?_eq_some hfind
        rw [hs]
        constructor
        · exact likesWf_insert u p s.likes hlw h1
        · intro q2 hq2
          obtain ⟨q, hq, rfl⟩ := List.mem_map.mp hq2
          by_cases hqp : q.id = p
          · have hif : (q.id == p) = true := by simp [hqp]
            show (if (q.id == p) = true then _ else q).likeCount = _
            rw [hif]
            simp only [if_true]
            rw [List.countP_append]
            have hrow : List.countP (fun l : PgLike => l.photoId == q.id && !l.isDeleted)
                [{ userId := u, photoId := p, isDeleted := false }] = 1 := by
              simp [List.countP_cons, hqp]
            rw [hrow]
            have hbase := hphoto photo hpmem
            rw [hpid] at hbase
            rw [hqp]
            push_cast
            omega
          · have hif : (q.id == p) = false := by simp [hqp]
            show (if (q.id == p) = true then _ else q).likeCount = _
            rw [hif]
            simp only [Bool.false_eq_true, if_false]
            rw [List.countP_append]
            have hrow : List.countP (fun l : PgLike => l.photoId == q.id && !l.isDeleted)
                [{ userId := u, photoId := p, isDeleted := false }] = 0 := by
              have hbe : (p == q.id) = false := by simp [Ne.symm hqp]
              simp [List.countP_cons, hbe]
            rw [hrow]
            simpa using hphoto q hq
  · -- a pair row exists; well-formedness pins its multiplicity to exactly 1
    have hpair : s.likes.Pairwise
        (fun a b => ¬(isPairLike u p a = true ∧ isPairLike u p b = true)) := by
      refine hlw.imp ?_
      intro a b hab hcon
      have ha := isPairLike_parts hcon.1
      have hb := isPairLike_parts hcon.2
      exact hab ⟨ha.1.trans hb.1.symm, ha.2.trans hb.2.symm⟩
    have hle := countP_le_one_of_pairwise (isPairLike u p) s.likes hpair
    have hL1 : s.likes.countP (isPairLike u p) = 1 := by
      unfold pgHasLiked at h1
      omega
    have hdle : s.likes.countP (fun l => isPairLike u p l && l.isDeleted) ≤ 1 := by
      have := countP_le_of_imp (fun l => isPairLike u p l && l.isDeleted) (isPairLike u p)
        s.likes (by intro a _ hsel; exact (bool_and_split hsel).1)
      omega
    have hsplit := countP_split (isPairLike u p) (fun l => l.isDeleted) s.likes
    by_cases h2 : pgHasDeleted s u p = 0
    · -- ACTIVE: soft-delete the row, counter -1
      have hsel1 : s.likes.countP (fun l => isPairLike u p l && !l.isDeleted) = 1 := by
        unfold pgHasDeleted at h2
        omega
      have hmapfacts :
          ∀ q : Nat, q ≠ p →
            List.countP (fun l : PgLike => l.photoId == q && !l.isDeleted)
              (s.likes.map (fun l =>
                if isPairLike u p l && !l.isDeleted then { l with isDeleted := true } else l)) =
            List.countP (fun l : PgLike => l.photoId == q && !l.isDeleted) s.likes := by
        intro q hq
        refine countP_map_eq _ _ _ ?_
        intro a _
        by_cases hsel : (isPairLike u p a && !a.isDeleted) = true
        · have hap : a.photoId = p := (isPairLike_parts (bool_and_split hsel).1).2
          have hbe : (a.photoId == q) = false := by simp [hap, Ne.symm hq]
          simp [hsel, hbe]
        · simp [hsel]
      have hmapp :
          List.countP (fun l : PgLike => l.photoId == p && !l.isDeleted)
            (s.likes.map (fun l =>
              if isPairLike u p l && !l.isDeleted then { l with isDeleted := true } else l)) + 1 =
          List.countP (fun l : PgLike => l.photoId == p && !l.isDeleted) s.likes := by
        have hd := countP_map_drop
          (fun l => if isPairLike u p l && !l.isDeleted then { l with isDeleted := true } else l)
          (fun l => isPairLike u p l && !l.isDeleted)
          (fun l => l.photoId == p && !l.isDeleted)
          s.likes
          (by intro a ha; simp [ha])
          (by intro a ha; simp [ha])
          (by
            intro a ha
            have h3 := bool_and_split ha
            have hap : a.photoId = p := (isPairLike_parts h3.1).2
            simp [hap, h3.2])
        rw [hsel1] at hd
        exact hd
      have hwfmap : likesWf (s.likes.map (fun l =>
          if isPairLike u p l && !l.isDeleted then { l with isDeleted := true } else l)) := by
        refine likesWf_map _ ?_ ?_ s.likes hlw
        · intro l; split <;> rfl
        · intro l; split <;> rfl
      cases hfind : s.photos.find? (fun ph => ph.id == p) with
      | none =>
          have hs : (pgLikePhoto u p s).1 =
              { s with likes := s.likes.map (fun l =>
                  if isPairLike u p l && !l.isDeleted then { l with isDeleted := true } else l) } := by
            simp [pgLikePhoto, h1, h2, hfind]
          rw [hs]
          refine ⟨hwfmap, ?_⟩
          intro ph hph
          have hne : ph.id ≠ p := by
            have := List.find?_eq_none.mp hfind ph hph
            simpa using this
          show ph.likeCount = _
          rw [hmapfacts ph.id hne]
          exact hphoto ph hph
      | some photo =>
          have hs : (pgLikePhoto u p s).1 =
              { s with likes := s.likes.map (fun l =>
                  if isPairLike u p l && !l.isDeleted then { l with isDeleted := true } else l),
                       photos := s.photos.map (fun ph =>
                         if ph.id == p then { ph with likeCount := photo.likeCount - 1 } else ph) } := by
            simp [pgLikePhoto, h1, h2, hfind]
          have hpid : photo.id = p := by simpa using List.find?_some hfind
          have hpmem := List.mem_of_find?_eq_some hfind
          rw [hs]
          refine ⟨hwfmap, ?_⟩
          intro q2 hq2
          obtain ⟨q, hq, rfl⟩ := List.mem_map.mp hq2
          by_cases hqp : q.id = p
          · have hif : (q.id == p) = true := by simp [hqp]
            show (if (q.id == p) = true then _ else q).likeCount = _
            rw [hif]
            simp only [if_true]
            have hbase := hphoto photo hpmem
            rw [hpid] at hbase
            rw [hqp]
            omega
          · have hif : (q.id == p) = false := by simp [hqp]
            show (if (q.id == p) = true then _ else q).likeCount = _
            rw [hif]
            simp only [Bool.false_eq_true, if_false]
            rw [hmapfacts q.id hqp]
            exact hphoto q hq
    · -- INACTIVE: clear the flag, counter +1
      have hD1 : s.likes.countP (fun l => isPairLike u p l && l.isDeleted) = 1 := by
        unfold pgHasDeleted at h2
        omega
      have hmapfacts :
          ∀ q : Nat, q ≠ p →
            List.countP (fun l : PgLike => l.photoId == q && !l.isDeleted)
              (s.likes.map (fun l =>
                if isPairLike u p l && l.isDeleted then { l with isDeleted := false } else l)) =
            List.countP (fun l : PgLike => l.photoId == q && !l.isDeleted) s.likes := by
        intro q hq
        refine countP_map_eq _ _ _ ?_
        intro a _
        by_cases hsel : (isPairLike u p a && a.isDeleted) = true
        · have hap : a.photoId = p := (isPairLike_parts (bool_and_split hsel).1).2
          have hbe : (a.photoId == q) = false := by simp [hap, Ne.symm hq]
          simp [hsel, hbe]
        · simp [hsel]
      have hmapp :
          List.countP (fun l : PgLike => l.photoId == p && !l.isDeleted)
            (s.likes.map (fun l =>
              if isPairLike u p l && l.isDeleted then { l with isDeleted := false } else l)) =
          List.countP (fun l : PgLike => l.photoId == p && !l.isDeleted) s.likes + 1 := by
        have hf := countP_map_flip
          (fun l => if isPairLike u p l && l.isDeleted then { l with isDeleted := false } else l)
          (fun l => isPairLike u p l && l.isDeleted)
          (fun l => l.photoId == p && !l.isDeleted)
          s.likes
          (by intro a ha; simp [ha])
          (by
            intro a ha
            have h3 := bool_and_split ha
            have hap : a.photoId = p := (isPairLike_parts h3.1).2
            simp [ha, hap])
          (by
            intro a ha
            have h3 := bool_and_split ha
            simp [h3.2])
        rw [hD1] at hf
        exact hf
      have hwfmap : likesWf (s.likes.map (fun l =>
          if isPairLike u p l && l.isDeleted then { l with isDeleted := false } else l)) := by
        refine likesWf_map _ ?_ ?_ s.likes hlw
        · intro l; split <;> rfl
        · intro l; split <;> rfl
      cases hfind : s.photos.find? (fun ph => ph.id == p) with
      | none =>
          have hs : (pgLikePhoto u p s).1 =
              { s with likes := s.likes.map (fun l =>
                  if isPairLike u p l && l.isDeleted then { l with isDeleted := false } else l) } := by
            simp [pgLikePhoto, h1, h2, hfind]
          rw [hs]
          refine ⟨hwfmap, ?_⟩
          intro ph hph
          have hne : ph.id ≠ p := by
            have := List.find?_eq_none.mp hfind ph hph
            simpa using this
          show ph.likeCount = _
          rw [hmapfacts ph.id hne]
          exact hphoto ph hph
      | some photo =>
          have hs : (pgLikePhoto u p s).1 =
              { s with likes := s.likes.map (fun l =>
                  if isPairLike u p l && l.isDeleted then { l with isDeleted := false } else l),
                       photos := s.photos.map (fun ph =>
                         if ph.id == p then { ph with likeCount := photo.likeCount + 1 } else ph) } := by
            simp [pgLikePhoto, h1, h2, hfind]
          have hpid : photo.id = p := by simpa using List.find?_some hfind
          have hpmem := List.mem_of_find?_eq_some hfind
          rw [hs]
          refine ⟨hwfmap, ?_⟩
          intro q2 hq2
          obtain ⟨q, hq, rfl⟩ := List.mem_map.mp hq2
          by_cases hqp : q.id = p
          · have hif : (q.id == p) = true := by simp [hqp]
            show (if (q.id == p) = true then _ else q).likeCount = _
            rw [hif]
            simp only [if_true]
            have hbase := hphoto photo hpmem
            rw [hpid] at hbase
            rw [hqp]
            rw [hmapp]
            push_cast
            omega
          · have hif : (q.id == p) = false := by simp [hqp]
            show (if (q.id == p) = true then _ else q).likeCount = _
            rw [hif]
            simp only [Bool.false_eq_true, if_false]
            rw [hmapfacts q.id hqp]
            exact hphoto q hq

theorem pgLikeComment_photos_eq (u c : Nat) (s : PgState) :
    ((pgLikeComment u c s).1).photos = s.photos := by
  simp only [pgLikeComment]
  repeat' split
  all_goals rfl

theorem pgLikeComment_likes_eq (u c : Nat) (s : PgState) :
    ((pgLikeComment u c s).1).likes = s.likes := by
  simp only [pgLikeComment]
  repeat' split
  all_goals rfl

theorem clWf_map (f : PgCommentLike → PgCommentLike)
    (hu : ∀ x, (f x).userId = x.userId) (hc : ∀ x, (f x).commentId = x.commentId)
    (l : List PgCommentLike) (h : clWf l) : clWf (l.map f) := by
  unfold clWf at h ⊢
  refine List.Pairwise.map f ?_ h
  intro a b hab
  rw [hu, hu, hc, hc]
  exact hab

theorem clWf_insert (u c : Nat) (l : List PgCommentLike)
    (h : clWf l) (hzero : l.countP (isPairCL u c) = 0) :
    clWf (l ++ [{ userId := u, commentId := c, isDeleted := false }]) := by
  unfold clWf at h ⊢
  rw [List.pairwise_append]
  refine ⟨h, by simp, ?_⟩
  intro a ha b hb
  simp only [List.mem_singleton] at hb
  subst hb
  have hnp := List.countP_eq_zero.mp hzero a ha
  intro hcon
  apply hnp
  simp [isPairCL, hcon.1, hcon.2]

theorem pgLikeComment_preserves (u c : Nat) (s : PgState)
    (hlw : clWf s.commentLikes)
    (hcomment : ∀ cm ∈ s.comments, cm.likeCount = (activeCommentLikes s cm.id : Int)) :
    clWf ((pgLikeComment u c s).1).commentLikes ∧
    ∀ cm ∈ ((pgLikeComment u c s).1).comments,
      cm.likeCount = (activeCommentLikes (pgLikeComment u c s).1 cm.id : Int) := by
  simp only [activeCommentLikes] at hcomment ⊢
  by_cases h1 : pgCLHasLiked s u c = 0
  · -- ABSENT: insert a fresh active row, counter +1
    cases hfind : s.comments.find? (fun cm => cm.id == c) with
    | none =>
        have hs : (pgLikeComment u c s).1 =
            { s with commentLikes := s.commentLikes ++ [{ userId := u, commentId := c, isDeleted := false }] } := by
          simp [pgLikeComment, h1, hfind]
        rw [hs]
        constructor
        · exact clWf_insert u c s.commentLikes hlw h1
        · intro cm hcm
          have hne : cm.id ≠ c := by
            have := List.find?_eq_none.mp hfind cm hcm
            simpa using this
          have hbe : (c == cm.id) = false := by
            simp [Ne.symm hne]
          show cm.likeCount = _
          rw [List.countP_append]
          have hrow : List.countP (fun x : PgCommentLike => x.commentId == cm.id && !x.isDeleted)
              [{ userId := u, commentId := c, isDeleted := false }] = 0 := by
            simp [List.countP_cons, hbe]
          rw [hrow]
          simpa using hcomment cm hcm
    | some comment =>
        have hs : (pgLikeComment u c s).1 =
            { s with commentLikes := s.commentLikes ++ [{ userId := u, commentId := c, isDeleted := false }],
                     comments := s.comments.map (fun cm =>
                       if cm.id == c then { cm with likeCount := comment.likeCount + 1 } else cm) } := by
          simp [pgLikeComment, h1, hfind]
        have hcid : comment.id = c := by simpa using List.find?_some hfind
        have hcmem := List.mem_of_find?_eq_some hfind
        rw [hs]
        constructor
        · exact clWf_insert u c s.commentLikes hlw h1
        · intro q2 hq2
          obtain ⟨q, hq, rfl⟩ := List.mem_map.mp hq2
          by_cases hqc : q.id = c
          · have hif : (q.id == c) = true := by simp [hqc]
            show (if (q.id == c) = true then _ else q).likeCount = _
            rw [hif]
            simp only [if_true]
            rw [List.countP_append]
            have hrow : List.countP (fun x : PgCommentLike => x.commentId == q.id && !x.isDeleted)
                [{ userId := u, commentId := c, isDeleted := false }] = 1 := by
              simp [List.countP_cons, hqc]
            rw [hrow]
            have hbase := hcomment comment hcmem
            rw [hcid] at hbase
            rw [hqc]
            push_cast
            omega
          · have hif : (q.id == c) = false := by simp [hqc]
            show (if (q.id == c) = true then _ else q).likeCount = _
            rw [hif]
            simp only [Bool.false_eq_true, if_false]
            rw [List.countP_append]
            have hrow : List.countP (fun x : PgCommentLike => x.commentId == q.id && !x.isDeleted)
                [{ userId := u, commentId := c, isDeleted := false }] = 0 := by
              have hbe : (c == q.id) = false := by simp [Ne.symm hqc]
              simp [List.countP_cons, hbe]
            rw [hrow]
            simpa using hcomment q hq
  · -- a pair row exists; well-formedness pins its multiplicity to exactly 1
    have hpair : s.commentLikes.Pairwise
        (fun a b => ¬(isPairCL u c a = true ∧ isPairCL u c b = true)) := by
      refine hlw.imp ?_
      intro a b hab hcon
      have ha := isPairCL_parts hcon.1
      have hb := isPairCL_parts hcon.2
      exact hab ⟨ha.1.trans hb.1.symm, ha.2.trans hb.2.symm⟩
    have hle := countP_le_one_of_pairwise (isPairCL u c) s.commentLikes hpair
    have hL1 : s.commentLikes.countP (isPairCL u c) = 1 := by
      unfold pgCLHasLiked at h1
      omega
    have hdle : s.commentLikes.countP (fun x => isPairCL u c x && x.isDeleted) ≤ 1 := by
      have := countP_le_of_imp (fun x => isPairCL u c x && x.isDeleted) (isPairCL u c)
        s.commentLikes (by intro a _ hsel; exact (bool_and_split hsel).1)
      omega
    have hsplit := countP_split (isPairCL u c) (fun x => x.isDeleted) s.commentLikes
    by_cases h2 : pgCLHasDeleted s u c = 0
    · -- ACTIVE: soft-delete the row, counter -1
      have hsel1 : s.commentLikes.countP (fun x => isPairCL u c x && !x.isDeleted) = 1 := by
        unfold pgCLHasDeleted at h2
        omega
      have hmapfacts :
          ∀ q : Nat, q ≠ c →
            List.countP (fun x : PgCommentLike => x.commentId == q && !x.isDeleted)
              (s.commentLikes.map (fun x =>
                if isPairCL u c x && !x.isDeleted then { x with isDeleted := true } else x)) =
            List.countP (fun x : PgCommentLike => x.commentId == q && !x.isDeleted) s.commentLikes := by
        intro q hq
        refine countP_map_eq _ _ _ ?_
        intro a _
        by_cases hsel : (isPairCL u c a && !a.isDeleted) = true
        · have hac : a.commentId = c := (isPairCL_parts (bool_and_split hsel).1).2
          have hbe : (a.commentId == q) = false := by simp [hac, Ne.symm hq]
          simp [hsel, hbe]
        · simp [hsel]
      have hmapp :
          List.countP (fun x : PgCommentLike => x.commentId == c && !x.isDeleted)
            (s.commentLikes.map (fun x =>
              if isPairCL u c x && !x.isDeleted then { x with isDeleted := true } else x)) + 1 =
          List.countP (fun x : PgCommentLike => x.commentId == c && !x.isDeleted) s.commentLikes := by
        have hd := countP_map_drop
          (fun x => if isPairCL u c x && !x.isDeleted then { x with isDeleted := true } else x)
          (fun x => isPairCL u c x && !x.isDeleted)
          (fun x => x.commentId == c && !x.isDeleted)
          s.commentLikes
          (by intro a ha; simp [ha])
          (by intro a ha; simp [ha])
          (by
            intro a ha
            have h3 := bool_and_split ha
            have hac : a.commentId = c := (isPairCL_parts h3.1).2
            simp [hac, h3.2])
        rw [hsel1] at hd
        exact hd
      have hwfmap : clWf (s.commentLikes.map (fun x =>
          if isPairCL u c x && !x.isDeleted then { x with isDeleted := true } else x)) := by
        refine clWf_map _ ?_ ?_ s.commentLikes hlw
        · intro x; split <;> rfl
        · intro x; split <;> rfl
      cases hfind : s.comments.find? (fun cm => cm.id == c) with
      | none =>
          have hs : (pgLikeComment u c s).1 =
              { s with commentLikes := s.commentLikes.map (fun x =>
                  if isPairCL u c x && !x.isDeleted then { x with isDeleted := true } else x) } := by
            simp [pgLikeComment, h1, h2, hfind]
          rw [hs]
          refine ⟨hwfmap, ?_⟩
          intro cm hcm
          have hne : cm.id ≠ c := by
            have := List.find?_eq_none.mp hfind cm hcm
            simpa using this
          show cm.likeCount = _
          rw [hmapfacts cm.id hne]
          exact hcomment cm hcm
      | some comment =>
          have hs : (pgLikeComment u c s).1 =
              { s with commentLikes := s.commentLikes.map (fun x =>
                  if isPairCL u c x && !x.isDeleted then { x with isDeleted := true } else x),
                       comments := s.comments.map (fun cm =>
                         if cm.id == c then { cm with likeCount := comment.likeCount - 1 } else cm) } := by
            simp [pgLikeComment, h1, h2, hfind]
          have hcid : comment.id = c := by simpa using List.find?_some hfind
          have hcmem := List.mem_of_find?_eq_some hfind
          rw [hs]
          refine ⟨hwfmap, ?_⟩
          intro q2 hq2
          obtain ⟨q, hq, rfl⟩ := List.mem_map.mp hq2
          by_cases hqc : q.id = c
          · have hif : (q.id == c) = true := by simp [hqc]
            show (if (q.id == c) = true then _ else q).likeCount = _
            rw [hif]
            simp only [if_true]
            have hbase := hcomment comment hcmem
            rw [hcid] at hbase
            rw [hqc]
            omega
          · have hif : (q.id == c) = false := by simp [hqc]
            show (if (q.id == c) = true then _ else q).likeCount = _
            rw [hif]
            simp only [Bool.false_eq_true, if_false]
            rw [hmapfacts q.id hqc]
            exact hcomment q hq
    · -- INACTIVE: clear the flag, counter +1
      have hD1 : s.commentLikes.countP (fun x => isPairCL u c x && x.isDeleted) = 1 := by
        unfold pgCLHasDeleted at h2
        omega
      have hmapfacts :
          ∀ q : Nat, q ≠ c →
            List.countP (fun x : PgCommentLike => x.commentId == q && !x.isDeleted)
              (s.commentLikes.map (fun x =>
                if isPairCL u c x && x.isDeleted then { x with isDeleted := false } else x)) =
            List.countP (fun x : PgCommentLike => x.commentId == q && !x.isDeleted) s.commentLikes := by
        intro q hq
        refine countP_map_eq _ _ _ ?_
        intro a _
        by_cases hsel : (isPairCL u c a && a.isDeleted) = true
        · have hac : a.commentId = c := (isPairCL_parts (bool_and_split hsel).1).2
          have hbe : (a.commentId == q) = false := by simp [hac, Ne.symm hq]
          simp [hsel, hbe]
        · simp [hsel]
      have hmapp :
          List.countP (fun x : PgCommentLike => x.commentId == c && !x.isDeleted)
            (s.commentLikes.map (fun x =>
              if isPairCL u c x && x.isDeleted then { x with isDeleted := false } else x)) =
          List.countP (fun x : PgCommentLike => x.commentId == c && !x.isDeleted) s.commentLikes + 1 := by
        have hf := countP_map_flip
          (fun x => if isPairCL u c x && x.isDeleted then { x with isDeleted := false } else x)
          (fun x => isPairCL u c x && x.isDeleted)
          (fun x => x.commentId == c && !x.isDeleted)
          s.commentLikes
          (by intro a ha; simp [ha])
          (by
            intro a ha
            have h3 := bool_and_split ha
            have hac : a.commentId = c := (isPairCL_parts h3.1).2
            simp [ha, hac])
          (by
            intro a ha
            have h3 := bool_and_split ha
            simp [h3.2])
        rw [hD1] at hf
        exact hf
      have hwfmap : clWf (s.commentLikes.map (fun x =>
          if isPairCL u c x && x.isDeleted then { x with isDeleted := false } else x)) := by
        refine clWf_map _ ?_ ?_ s.commentLikes hlw
        · intro x; split <;> rfl
        · intro x; split <;> rfl
      cases hfind : s.comments.find? (fun cm => cm.id == c) with
      | none =>
          have hs : (pgLikeComment u c s).1 =
              { s with commentLikes := s.commentLikes.map (fun x =>
                  if isPairCL u c x && x.isDeleted then { x with isDeleted := false } else x) } := by
            simp [pgLikeComment, h1, h2, hfind]
          rw [hs]
          refine ⟨hwfmap, ?_⟩
          intro cm hcm
          have hne : cm.id ≠ c := by
            have := List.find?_eq_none.mp hfind cm hcm
            simpa using this
          show cm.likeCount = _
          rw [hmapfacts cm.id hne]
          exact hcomment cm hcm
      | some comment =>
          have hs : (pgLikeComment u c s).1 =
              { s with commentLikes := s.commentLikes.map (fun x =>
                  if isPairCL u c x && x.isDeleted then { x with isDeleted := false } else x),
                       comments := s.comments.map (fun cm =>
                         if cm.id == c then { cm with likeCount := comment.likeCount + 1 } else cm) } := by
            simp [pgLikeComment, h1, h2, hfind]
          have hcid : comment.id = c := by simpa using List.find?_some hfind
          have hcmem := List.mem_of_find?_eq_some hfind
          rw [hs]
          refine ⟨hwfmap, ?_⟩
          intro q2 hq2
          obtain ⟨q, hq, rfl⟩ := List.mem_map.mp hq2
          by_cases hqc : q.id = c
          · have hif : (q.id == c) = true := by simp [hqc]
            show (if (q.id == c) = true then _ else q).likeCount = _
            rw [hif]
            simp only [if_true]
            have hbase := hcomment comment hcmem
            rw [hcid] at hbase
            rw [hqc]
            rw [hmapp]
            push_cast
            omega
          · have hif : (q.id == c) = false := by simp [hqc]
            show (if (q.id == c) = true then _ else q).likeCount = _
            rw [hif]
            simp only [Bool.false_eq_true, if_false]
            rw [hmapfacts q.id hqc]
            exact hcomment q hq

/-! ## Sequences of like toggles against the relational backend -/

/-- The single-entry-point toggle calls of the relational backend
(`likePhoto`, `likeComment`). -/
inductive ToggleOp where
  | likePhoto (userId photoId : Nat)
  | likeComment (userId commentId : Nat)
deriving DecidableEq

/-- One HTTP request: the call runs to completion (or to its thrown
`TypeError`); either way the mutations it issued persist in the store. -/
def applyToggle (op : ToggleOp) (s : PgState) : PgState :=
  match op with
  | .likePhoto u p => (pgLikePhoto u p s).1
  | .likeComment u c => (pgLikeComment u c s).1

def applyToggles : List ToggleOp → PgState → PgState
  | [], s => s
  | op :: rest, s => applyToggles rest (applyToggle op s)

theorem applyToggle_preserves (op : ToggleOp) (s : PgState)
    (hwf : pgTogglesWf s) (hinv : pgCounterInvariant s) :
    pgTogglesWf (applyToggle op s) ∧ pgCounterInvariant (applyToggle op s) := by
  obtain ⟨hlw, hclw⟩ := hwf
  obtain ⟨hph, hcm⟩ := hinv
  cases op with
  | likePhoto u p =>
      have hmain := pgLikePhoto_preserves u p s hlw hph
      have hc1 := pgLikePhoto_comments_eq u p s
      have hc2 := pgLikePhoto_commentLikes_eq u p s
      refine ⟨⟨hmain.1, ?_⟩, hmain.2, ?_⟩
      · show clWf ((pgLikePhoto u p s).1).commentLikes
        rw [hc2]
        exact hclw
      · show ∀ cm ∈ ((pgLikePhoto u p s).1).comments, _
        rw [hc1]
        intro cm hcm2
        show cm.likeCount = (activeCommentLikes (pgLikePhoto u p s).1 cm.id : Int)
        unfold activeCommentLikes
        rw [hc2]
        exact hcm cm hcm2
  | likeComment u c =>
      have hmain := pgLikeComment_preserves u c s hclw hcm
      have hc1 := pgLikeComment_photos_eq u c s
      have hc2 := pgLikeComment_likes_eq u c s
      refine ⟨⟨?_, hmain.1⟩, ?_, hmain.2⟩
      · show likesWf ((pgLikeComment u c s).1).likes
        rw [hc2]
        exact hlw
      · show ∀ ph ∈ ((pgLikeComment u c s).1).photos, _
        rw [hc1]
        intro ph hph2
        show ph.likeCount = (activeLikes (pgLikeComment u c s).1 ph.id : Int)
        unfold activeLikes
        rw [hc2]
        exact hph ph hph2

theorem applyToggles_preserves (ops : List ToggleOp) :
    ∀ s : PgState, pgTogglesWf s → pgCounterInvariant s →
      pgTogglesWf (applyToggles ops s) ∧ pgCounterInvariant (applyToggles ops s) := by
  induction ops with
  | nil => intro s hwf hinv; exact ⟨hwf, hinv⟩
  | cons op rest ih =>
      intro s hwf hinv
      have hstep := applyToggle_preserves op s hwf hinv
      exact ih (applyToggle op s) hstep.1 hstep.2

/-! ## The per-pair state machine of `pgLikePhoto` -/

theorem find?_photos_bump (photos : List PgPhoto) (p : Nat) (photo : PgPhoto) (v : Int)
    (hfind : photos.find? (fun ph => ph.id == p) = some photo) :
    (photos.map (fun ph => if ph.id == p then { ph with likeCount := v } else ph)).find?
        (fun ph => ph.id == p) = some { photo with likeCount := v } := by
  have hpres : ∀ x : PgPhoto,
      ((if x.id == p then { x with likeCount := v } else x : PgPhoto).id == p) = (x.id == p) := by
    intro x
    split <;> rfl
  have hmap := find?_map_update
    (fun ph => if ph.id == p then { ph with likeCount := v } else ph)
    (fun ph => ph.id == p) photos hpres
  rw [hfind] at hmap
  rw [hmap]
  have hpid : photo.id = p := by simpa using List.find?_some hfind
  simp [hpid]

theorem pgLikePhoto_photos_none (u p : Nat) (s : PgState)
    (hfind : s.photos.find? (fun ph => ph.id == p) = none) :
    ((pgLikePhoto u p s).1).photos = s.photos := by
  simp only [pgLikePhoto, hfind]
  repeat' split
  all_goals rfl

theorem pgLikePhoto_machine (u p : Nat) (s : PgState) (photo : PgPhoto)
    (hfind : s.photos.find? (fun ph => ph.id == p) = some photo) :
    (likePairState s u p = .absent →
       likePairState (pgLikePhoto u p s).1 u p = .active ∧
       ((pgLikePhoto u p s).1).likes =
         s.likes ++ [{ userId := u, photoId := p, isDeleted := false }] ∧
       pgPhotoLikeCount (pgLikePhoto u p s).1 p = some (photo.likeCount + 1)) ∧
    (likePairState s u p = .active →
       likePairState (pgLikePhoto u p s).1 u p = .inactive ∧
       ((pgLikePhoto u p s).1).likes.length = s.likes.length ∧
       pgPhotoLikeCount (pgLikePhoto u p s).1 p = some (photo.likeCount - 1)) ∧
    (likePairState s u p = .inactive →
       likePairState (pgLikePhoto u p s).1 u p = .active ∧
       ((pgLikePhoto u p s).1).likes.length = s.likes.length ∧
       pgPhotoLikeCount (pgLikePhoto u p s).1 p = some (photo.likeCount + 1)) := by
  refine ⟨?_, ?_, ?_⟩
  · -- ABSENT → ACTIVE, row inserted, counter +1
    intro hst
    have h1 : pgHasLiked s u p = 0 := by
      by_contra h
      unfold likePairState at hst
      rw [if_neg h] at hst
      split at hst <;> simp at hst
    have hs : (pgLikePhoto u p s).1 =
        { s with likes := s.likes ++ [{ userId := u, photoId := p, isDeleted := false }],
                 photos := s.photos.map (fun ph =>
                   if ph.id == p then { ph with likeCount := photo.likeCount + 1 } else ph) } := by
      simp [pgLikePhoto, h1, hfind]
    have hrowpair : List.countP (isPairLike u p)
        [{ userId := u, photoId := p, isDeleted := false }] = 1 := by
      simp [List.countP_cons, isPairLike]
    have hrowdel : List.countP (fun l : PgLike => isPairLike u p l && l.isDeleted)
        [{ userId := u, photoId := p, isDeleted := false }] = 0 := by
      simp [List.countP_cons]
    have hdz : s.likes.countP (fun l => isPairLike u p l && l.isDeleted) = 0 := by
      have := countP_le_of_imp (fun l => isPairLike u p l && l.isDeleted) (isPairLike u p)
        s.likes (by intro a _ hsel; exact (bool_and_split hsel).1)
      unfold pgHasLiked at h1
      omega
    refine ⟨?_, ?_, ?_⟩
    · unfold likePairState pgHasLiked pgHasDeleted
      rw [hs]
      show (if List.countP (isPairLike u p) (s.likes ++ _) = 0 then _ else _) = _
      rw [List.countP_append, hrowpair, List.countP_append, hrowdel]
      unfold pgHasLiked at h1
      rw [h1, hdz]
      rfl
    · rw [hs]
    · unfold pgPhotoLikeCount
      rw [hs]
      show ((s.photos.map _).find? _).map _ = _
      rw [find?_photos_bump s.photos p photo (photo.likeCount + 1) hfind]
      rfl
  · -- ACTIVE → INACTIVE, row flagged, counter -1
    intro hst
    have h1 : ¬pgHasLiked s u p = 0 := by
      intro h
      unfold likePairState at hst
      rw [if_pos h] at hst
      simp at hst
    have h2 : pgHasDeleted s u p = 0 := by
      by_contra h
      unfold likePairState at hst
      rw [if_neg h1, if_pos h] at hst
      simp at hst
    have hs : (pgLikePhoto u p s).1 =
        { s with likes := s.likes.map (fun l =>
            if isPairLike u p l && !l.isDeleted then { l with isDeleted := true } else l),
                 photos := s.photos.map (fun ph =>
                   if ph.id == p then { ph with likeCount := photo.likeCount - 1 } else ph) } := by
      simp [pgLikePhoto, h1, h2, hfind]
    have hpairkeep : List.countP (isPairLike u p)
        (s.likes.map (fun l =>
          if isPairLike u p l && !l.isDeleted then { l with isDeleted := true } else l)) =
        List.countP (isPairLike u p) s.likes := by
      refine countP_map_eq _ _ _ ?_
      intro a _
      split <;> rfl
    have hsplit := countP_split (isPairLike u p) (fun l => l.isDeleted) s.likes
    have hdelnew : List.countP (fun l : PgLike => isPairLike u p l && l.isDeleted)
        (s.likes.map (fun l =>
          if isPairLike u p l && !l.isDeleted then { l with isDeleted := true } else l)) =
        List.countP (fun l : PgLike => isPairLike u p l && !l.isDeleted) s.likes := by
      have hf := countP_map_flip
        (fun l => if isPairLike u p l && !l.isDeleted then { l with isDeleted := true } else l)
        (fun l => isPairLike u p l && !l.isDeleted)
        (fun l => isPairLike u p l && l.isDeleted)
        s.likes
        (by intro a ha; simp [ha])
        (by
          intro a ha
          have h3 := bool_and_split ha
          have hnd : a.isDeleted = false := by
            revert h3
            cases a.isDeleted <;> simp
          have hparts := isPairLike_parts h3.1
          simp [isPairLike, hparts.1, hparts.2, hnd])
        (by
          intro a ha
          have h3 := bool_and_split ha
          have hnd : a.isDeleted = false := by
            revert h3
            cases a.isDeleted <;> simp
          simp [hnd])
      unfold pgHasDeleted at h2
      rw [h2] at hf
      omega
    refine ⟨?_, ?_, ?_⟩
    · unfold likePairState pgHasLiked pgHasDeleted
      rw [hs]
      show (if List.countP (isPairLike u p) (s.likes.map _) = 0 then _ else _) = _
      rw [hpairkeep, hdelnew]
      unfold pgHasLiked at h1
      rw [if_neg h1]
      unfold pgHasDeleted at h2
      have hne : ¬List.countP (fun l : PgLike => isPairLike u p l && !l.isDeleted) s.likes = 0 := by
        rw [h2] at hsplit
        omega
      rw [if_pos hne]
    · rw [hs]
      show (s.likes.map _).length = _
      rw [List.length_map]
    · unfold pgPhotoLikeCount
      rw [hs]
      show ((s.photos.map _).find? _).map _ = _
      rw [find?_photos_bump s.photos p photo (photo.likeCount - 1) hfind]
      rfl
  · -- INACTIVE → ACTIVE, flag cleared, counter +1
    intro hst
    have h1 : ¬pgHasLiked s u p = 0 := by
      intro h
      unfold likePairState at hst
      rw [if_pos h] at hst
      simp at hst
    have h2 : ¬pgHasDeleted s u p = 0 := by
      intro h
      unfold likePairState at hst
      rw [if_neg h1] at hst
      rw [if_neg (by simpa using h)] at hst
      simp at hst
    have hs : (pgLikePhoto u p s).1 =
        { s with likes := s.likes.map (fun l =>
            if isPairLike u p l && l.isDeleted then { l with isDeleted := false } else l),
                 photos := s.photos.map (fun ph =>
                   if ph.id == p then { ph with likeCount := photo.likeCount + 1 } else ph) } := by
      simp [pgLikePhoto, h1, h2, hfind]
    have hpairkeep : List.countP (isPairLike u p)
        (s.likes.map (fun l =>
          if isPairLike u p l && l.isDeleted then { l with isDeleted := false } else l)) =
        List.countP (isPairLike u p) s.likes := by
      refine countP_map_eq _ _ _ ?_
      intro a _
      split <;> rfl
    have hdelnew : List.countP (fun l : PgLike => isPairLike u p l && l.isDeleted)
        (s.likes.map (fun l =>
          if isPairLike u p l && l.isDeleted then { l with isDeleted := false } else l)) = 0 := by
      have hd := countP_map_drop
        (fun l => if isPairLike u p l && l.isDeleted then { l with isDeleted := false } else l)
        (fun l => isPairLike u p l && l.isDeleted)
        (fun l => isPairLike u p l && l.isDeleted)
        s.likes
        (by intro a ha; simp [ha])
        (by intro a ha; simp [ha])
        (by intro a ha; exact ha)
      omega
    refine ⟨?_, ?_, ?_⟩
    · unfold likePairState pgHasLiked pgHasDeleted
      rw [hs]
      show (if List.countP (isPairLike u p) (s.likes.map _) = 0 then _ else _) = _
      rw [hpairkeep, hdelnew]
      unfold pgHasLiked at h1
      rw [if_neg h1]
      simp
    · rw [hs]
      show (s.likes.map _).length = _
      rw [List.length_map]
    · unfold pgPhotoLikeCount
      rw [hs]
      show ((s.photos.map _).find? _).map _ = _
      rw [find?_photos_bump s.photos p photo (photo.likeCount + 1) hfind]
      rfl

/-! ## Double-toggle behaviour of `pgLikePhoto` -/

theorem pgLikePhoto_double (s : PgState) (u p : Nat) :
    pgPhotoLikeCount ((pgLikePhoto u p (pgLikePhoto u p s).1).1) p = pgPhotoLikeCount s p := by
  cases hfind : s.photos.find? (fun ph => ph.id == p) with
  | none =>
      have e1 := pgLikePhoto_photos_none u p s hfind
      have hfind1 : ((pgLikePhoto u p s).1).photos.find? (fun ph => ph.id == p) = none := by
        rw [e1]
        exact hfind
      have e2 := pgLikePhoto_photos_none u p (pgLikePhoto u p s).1 hfind1
      unfold pgPhotoLikeCount
      rw [e2, e1]
  | some photo =>
      have hm1 := pgLikePhoto_machine u p s photo hfind
      have hrhs : pgPhotoLikeCount s p = some photo.likeCount := by
        unfold pgPhotoLikeCount
        rw [hfind]
        rfl
      cases hst : likePairState s u p with
      | absent =>
          have h := hm1.1 hst
          obtain ⟨ph1, hfind1, hph1⟩ := Option.map_eq_some'.mp h.2.2
          have hm2 := pgLikePhoto_machine u p (pgLikePhoto u p s).1 ph1 hfind1
          have h2 := hm2.2.1 h.1
          rw [h2.2.2, hrhs, hph1]
          simp
      | active =>
          have h := hm1.2.1 hst
          obtain ⟨ph1, hfind1, hph1⟩ := Option.map_eq_some'.mp h.2.2
          have hm2 := pgLikePhoto_machine u p (pgLikePhoto u p s).1 ph1 hfind1
          have h2 := hm2.2.2 h.1
          rw [h2.2.2, hrhs, hph1]
          simp
      | inactive =>
          have h := hm1.2.2 hst
          obtain ⟨ph1, hfind1, hph1⟩ := Option.map_eq_some'.mp h.2.2
          have hm2 := pgLikePhoto_machine u p (pgLikePhoto u p s).1 ph1 hfind1
          have h2 := hm2.2.1 h.1
          rw [h2.2.2, hrhs, hph1]
          simp

/-! ## Helpers for the follow-twice and backend-agreement theorems -/

theorem find?_users_bump (users : List PgUser) (g : Nat) (usr : PgUser) (v : Int)
    (hfind : users.find? (fun x => x.id == g) = some usr) :
    (users.map (fun x => if x.id == g then { x with followerCount := v } else x)).find?
        (fun x => x.id == g) = some { usr with followerCount := v } := by
  have hpres : ∀ x : PgUser,
      ((if x.id == g then { x with followerCount := v } else x : PgUser).id == g) = (x.id == g) := by
    intro x
    split <;> rfl
  have hmap := find?_map_update
    (fun x => if x.id == g then { x with followerCount := v } else x)
    (fun x => x.id == g) users hpres
  rw [hfind] at hmap
  rw [hmap]
  have hgid : usr.id = g := by simpa using List.find?_some hfind
  simp [hgid]

theorem find?_setPhotoById (photos : List MemPhoto) (p : Nat) (photo v : MemPhoto)
    (hfind : photos.find? (fun x => x.id == p) = some photo)
    (hvid : v.id = photo.id) :
    (setPhotoById photos v).find? (fun x => x.id == p) = some v := by
  have hpid : photo.id = p := by simpa using List.find?_some hfind
  have hany : photos.any (fun x => x.id == v.id) = true := by
    refine List.any_eq_true.mpr ⟨photo, List.mem_of_find?_eq_some hfind, ?_⟩
    simp [hvid]
  unfold setPhotoById
  rw [if_pos hany]
  have hpres : ∀ x : MemPhoto,
      ((if x.id == v.id then v else x : MemPhoto).id == p) = (x.id == p) := by
    intro x
    by_cases hx : (x.id == v.id) = true
    · rw [if_pos hx]
      have hxeq : x.id = v.id := by simpa using hx
      rw [hxeq]
    · rw [if_neg hx]
  have hmap := find?_map_update (fun x => if x.id == v.id then v else x)
    (fun x => x.id == p) photos hpres
  rw [hfind] at hmap
  rw [hmap]
  simp [hvid]

/-- The soft-delete toggle behaviour of `followUser` in the relational backend:
from no pair row and `followerCount = 0`, two consecutive `followUser` calls
give counters 1 then 2, and leave exactly one ACTIVE (`isDeleted = false`)
Follow row for the pair. -/
def FollowTwiceSpec (s : PgState) (f g : Nat) : Prop :=
  pgUserFollowerCount (pgFollowUser f g s).1 g = some 1 ∧
  pgUserFollowerCount (pgFollowUser f g (pgFollowUser f g s).1).1 g = some 2 ∧
  ((pgFollowUser f g (pgFollowUser f g s).1).1).follows.filter (isPairFollow f g) =
    [{ followerId := f, followingId := g, isDeleted := false }]

theorem pgFollowUser_twice (s : PgState) (f g : Nat) (u0 : PgUser)
    (hu : s.users.find? (fun x => x.id == g) = some u0)
    (hc : u0.followerCount = 0)
    (hnof : s.follows.countP (isPairFollow f g) = 0) :
    FollowTwiceSpec s f g := by
  unfold FollowTwiceSpec
  have hrowpair : isPairFollow f g { followerId := f, followingId := g, isDeleted := false } = true := by
    simp [isPairFollow]
  have hs1 : (pgFollowUser f g s).1 =
      { s with users := s.users.map (fun x : PgUser =>
          if x.id == g then { x with followerCount := u0.followerCount + 1 } else x),
               follows := s.follows ++ [{ followerId := f, followingId := g, isDeleted := false }] } := by
    simp [pgFollowUser, hnof, hu]
  set s1 := (pgFollowUser f g s).1 with hs1def
  have hfollows1 : s1.follows = s.follows ++ [{ followerId := f, followingId := g, isDeleted := false }] := by
    rw [hs1]
  have husers1 : s1.users = s.users.map (fun x : PgUser =>
      if x.id == g then { x with followerCount := u0.followerCount + 1 } else x) := by
    rw [hs1]
  have hfind1 : s1.users.find? (fun x => x.id == g) =
      some { u0 with followerCount := u0.followerCount + 1 } := by
    rw [husers1]
    exact find?_users_bump s.users g u0 (u0.followerCount + 1) hu
  have hcount1 : pgUserFollowerCount s1 g = some 1 := by
    unfold pgUserFollowerCount
    rw [hfind1]
    simp [hc]
  have hpos : s1.follows.countP (isPairFollow f g) = 1 := by
    rw [hfollows1, List.countP_append, hnof]
    simp [List.countP_cons, hrowpair]
  have hs2 : (pgFollowUser f g s1).1 =
      { s1 with
          users := s1.users.map (fun x : PgUser =>
            if x.id == g then { x with followerCount := (u0.followerCount + 1) + 1 } else x),
          follows := s1.follows.map (fun x =>
            if isPairFollow f g x then { x with isDeleted := false } else x) } := by
    simp [pgFollowUser, hpos, hfind1]
  refine ⟨hcount1, ?_, ?_⟩
  · have hfind2 : ((pgFollowUser f g s1).1).users.find? (fun x => x.id == g) =
        some { u0 with followerCount := (u0.followerCount + 1) + 1 } := by
      rw [hs2]
      show (s1.users.map _).find? _ = _
      exact find?_users_bump s1.users g { u0 with followerCount := u0.followerCount + 1 }
        ((u0.followerCount + 1) + 1) hfind1
    unfold pgUserFollowerCount
    rw [hfind2, hc]
    norm_num
  · rw [hs2]
    show ((s1.follows.map _).filter _) = _
    rw [hfollows1, List.map_append, List.filter_append]
    have hleft : ((s.follows.map (fun x =>
        if isPairFollow f g x then { x with isDeleted := false } else x)).filter
          (isPairFollow f g)) = [] := by
      rw [List.filter_eq_nil_iff]
      intro b hb
      obtain ⟨a, ha, rfl⟩ := List.mem_map.mp hb
      have hnp := List.countP_eq_zero.mp hnof a ha
      by_cases hcond : isPairFollow f g a = true
      · exact absurd hcond hnp
      · rw [if_neg hcond]
        exact hnp
    rw [hleft]
    simp [hrowpair]

/-- Agreement of the two backends on the first toggle-on of a fresh pair:
both move the photo's observed counter from `c` to `c + 1`. -/
def FirstToggleAgreeSpec (ms : MemState) (ps : PgState) (u p : Nat) (c : Nat) : Prop :=
  memPhotoLikeCount (memLikePhoto u p ms) p = some (c + 1) ∧
  pgPhotoLikeCount (pgLikePhoto u p ps).1 p = some ((c : Int) + 1)

theorem backends_agree_first_toggle (ms : MemState) (ps : PgState) (u p : Nat) (c : Nat)
    (hm : memPhotoLikeCount ms p = some c)
    (hp : pgPhotoLikeCount ps p = some ((c : Int)))
    (hno : ps.likes.countP (isPairLike u p) = 0) :
    FirstToggleAgreeSpec ms ps u p c := by
  constructor
  · obtain ⟨photo, hfind, hcnt⟩ := Option.map_eq_some'.mp hm
    have hs : memLikePhoto u p ms =
        { ms with photos := setPhotoById ms.photos { photo with likeCount := photo.likeCount + 1 } } := by
      simp [memLikePhoto, hfind]
    unfold memPhotoLikeCount
    rw [hs]
    show ((setPhotoById ms.photos _).find? _).map _ = _
    rw [find?_setPhotoById ms.photos p photo { photo with likeCount := photo.likeCount + 1 } hfind rfl]
    simp [hcnt]
  · obtain ⟨pp, hfindp, hcntp⟩ := Option.map_eq_some'.mp hp
    have hst : likePairState ps u p = .absent := by
      unfold likePairState
      rw [if_pos (by exact hno : pgHasLiked ps u p = 0)]
    have h := (pgLikePhoto_machine u p ps pp hfindp).1 hst
    rw [h.2.2, hcntp]

/-! ## No interface operation of `MemStorage` ever writes the likes or
commentLikes maps -/

theorem applyMemOp_likes_eq (op : MemOp) (s : MemState) :
    (applyMemOp op s).likes = s.likes := by
  cases op <;>
    simp only [applyMemOp, memCreateUser, memUpdateUserProfile, memCreatePhoto,
      memLikePhoto, memUnlikePhoto, memFollowUser, memUnfollowUser, memCreateComment,
      memLikeComment, memUnlikeComment, memCreateNotification, memMarkNotificationAsRead,
      memMarkAllNotificationsAsRead] <;>
    (repeat' split) <;> rfl

theorem applyMemOp_commentLikes_eq (op : MemOp) (s : MemState) :
    (applyMemOp op s).commentLikes = s.commentLikes := by
  cases op <;>
    simp only [applyMemOp, memCreateUser, memUpdateUserProfile, memCreatePhoto,
      memLikePhoto, memUnlikePhoto, memFollowUser, memUnfollowUser, memCreateComment,
      memLikeComment, memUnlikeComment, memCreateNotification, memMarkNotificationAsRead,
      memMarkAllNotificationsAsRead] <;>
    (repeat' split) <;> rfl

theorem applyMemOps_likes_eq (ops : List MemOp) :
    ∀ s : MemState, (applyMemOps ops s).likes = s.likes ∧
      (applyMemOps ops s).commentLikes = s.commentLikes := by
  induction ops with
  | nil => intro s; exact ⟨rfl, rfl⟩
  | cons op rest ih =>
      intro s
      have hr := ih (applyMemOp op s)
      exact ⟨hr.1.trans (applyMemOp_likes_eq op s),
             hr.2.trans (applyMemOp_commentLikes_eq op s)⟩

instance pgTogglesWfDecidable (s : PgState) : Decidable (pgTogglesWf s) := by
  unfold pgTogglesWf likesWf clWf
  infer_instance

instance pgCounterInvariantDecidable (s : PgState) : Decidable (pgCounterInvariant s) := by
  unfold pgCounterInvariant activeLikes activeCommentLikes
  infer_instance

/-! ## Concrete example states -/

def memUserEx (i : Nat) : MemUser :=
  { id := i, username := toString i, password := "pw", displayName := none,
    bio := none, avatarUrl := none, followerCount := 0 }

def memPhotoEx : MemPhoto :=
  { id := 1, userId := 1, imageUrl := "img", caption := none, likeCount := 0, commentCount := 0 }

def memCommentEx : MemComment :=
  { id := 1, userId := 1, photoId := 1, content := "hi", likeCount := 0 }

/-- An in-memory store holding users 1 and 2, photo 1 and comment 1, with all
counters 0 and no relationship rows. -/
def memEx : MemState :=
  { memInit with users := [memUserEx 1, memUserEx 2], photos := [memPhotoEx],
                 comments := [memCommentEx],
                 currentId := 3, currentPhotoId := 2, currentCommentId := 2 }

def pgUserEx (i : Nat) : PgUser :=
  { id := i, username := toString i, displayName := none, bio := none,
    avatarUrl := none, followerCount := 0, isDeleted := false }

def pgPhotoEx : PgPhoto :=
  { id := 1, userId := 1, imageUrl := "img", caption := none, likeCount := 0,
    commentCount := 0, isDeleted := false }

def pgCommentEx : PgComment :=
  { id := 1, userId := 1, photoId := 1, content := "hi", likeCount := 0, isDeleted := false }

/-- The relational store corresponding to `memEx`. -/
def pgEx : PgState :=
  { users := [pgUserEx 1, pgUserEx 2], photos := [pgPhotoEx], comments := [pgCommentEx],
    likes := [], follows := [], commentLikes := [] }

/-- Two in-flight `likePhoto` calls by distinct actors 1 and 2 on photo 1. -/
def likeThreadsEx : List LikeCall := [likeCallStart 1 1, likeCallStart 2 1]

/-! ## Claims -/

/-- Claim C1, counterexample: in MemStorage a single `likePhoto` call makes the
photo's `likeCount` 1 while zero Like rows exist for it (none is ever created),
so the denormalized counter does not equal the number of non-deleted
relationship rows for the target. -/
theorem c1_counterexample :
    memPhotoLikeCount (memLikePhoto 1 1 memEx) 1 = some 1 ∧
    (memLikePhoto 1 1 memEx).likes.countP (fun l => l.photoId == 1) = 0 ∧
    ¬(memPhotoLikeCount (memLikePhoto 1 1 memEx) 1 =
      some ((memLikePhoto 1 1 memEx).likes.countP (fun l => l.photoId == 1))) := by
  decide

/-- Claim C1, amended: in the PostgresStorage backend, after any sequence of
`likePhoto` / `likeComment` toggle calls starting from a well-formed state
satisfying the counter invariant, every photo's `likeCount` and every comment's
`likeCount` equals the number of ACTIVE (non-deleted) relationship rows for it.
The claim as frozen is false for MemStorage (see `c1_counterexample`) and for
the Follow relation of the relational backend (see C5 and C6). -/
theorem c1_pg_like_counter_invariant (ops : List ToggleOp) (s : PgState)
    (hwf : pgTogglesWf s) (hinv : pgCounterInvariant s) :
    pgCounterInvariant (applyToggles ops s) :=
  (applyToggles_preserves ops s hwf hinv).2

/-- Claim C1, witness for the amended theorem at a concrete store and toggle
sequence. -/
theorem c1_witness :
    pgTogglesWf pgEx ∧ pgCounterInvariant pgEx ∧
    pgCounterInvariant (applyToggles
      [ToggleOp.likePhoto 1 1, ToggleOp.likePhoto 2 1, ToggleOp.likePhoto 1 1,
       ToggleOp.likeComment 1 1, ToggleOp.likeComment 1 1] pgEx) :=
  ⟨by decide, by decide,
   c1_pg_like_counter_invariant
     [ToggleOp.likePhoto 1 1, ToggleOp.likePhoto 2 1, ToggleOp.likePhoto 1 1,
      ToggleOp.likeComment 1 1, ToggleOp.likeComment 1 1] pgEx (by decide) (by decide)⟩

/-- Claim C2, counterexample: the CommentLike relation does return to ABSENT
after being created — `likeComment` creates the pair row (ACTIVE) and
`unlikeComment` physically deletes it, so the pair is ABSENT again. -/
theorem c2_counterexample :
    commentPairState pgEx 1 1 = RelState.absent ∧
    commentPairState (pgLikeComment 1 1 pgEx).1 1 1 = RelState.active ∧
    commentPairState (pgUnlikeComment 1 1 (pgLikeComment 1 1 pgEx).1).1 1 1 = RelState.absent := by
  decide

/-- The transition table of `PostgresStorage.likePhoto` for an existing photo:
ABSENT toggles to ACTIVE inserting a row with counter +1; ACTIVE toggles to
INACTIVE flagging the row (no row added or removed) with counter -1; INACTIVE
toggles to ACTIVE clearing the flag with counter +1. -/
def LikeToggleMachineSpec (s : PgState) (u p : Nat) (photo : PgPhoto) : Prop :=
  (likePairState s u p = .absent →
     likePairState (pgLikePhoto u p s).1 u p = .active ∧
     ((pgLikePhoto u p s).1).likes =
       s.likes ++ [{ userId := u, photoId := p, isDeleted := false }] ∧
     pgPhotoLikeCount (pgLikePhoto u p s).1 p = some (photo.likeCount + 1)) ∧
  (likePairState s u p = .active →
     likePairState (pgLikePhoto u p s).1 u p = .inactive ∧
     ((pgLikePhoto u p s).1).likes.length = s.likes.length ∧
     pgPhotoLikeCount (pgLikePhoto u p s).1 p = some (photo.likeCount - 1)) ∧
  (likePairState s u p = .inactive →
     likePairState (pgLikePhoto u p s).1 u p = .active ∧
     ((pgLikePhoto u p s).1).likes.length = s.likes.length ∧
     pgPhotoLikeCount (pgLikePhoto u p s).1 p = some (photo.likeCount + 1))

/-- Claim C2, amended: the Like relation under `PostgresStorage.likePhoto`
implements exactly the claimed state machine and never returns to ABSENT.  The
claim as frozen is false because it also covers CommentLike under its toggles:
`unlikeComment` hard-deletes the row, returning the pair to ABSENT
(see `c2_counterexample`); `followUser` on an ACTIVE pair likewise deviates
(+1 instead of toggling off, see C6). -/
theorem c2_like_state_machine (s : PgState) (u p : Nat) (photo : PgPhoto)
    (hfind : s.photos.find? (fun ph => ph.id == p) = some photo) :
    LikeToggleMachineSpec s u p photo := by
  unfold LikeToggleMachineSpec
  exact pgLikePhoto_machine u p s photo hfind

/-- Claim C2, witness at a concrete store. -/
theorem c2_witness :
    pgEx.photos.find? (fun ph => ph.id == 1) = some pgPhotoEx ∧
    LikeToggleMachineSpec pgEx 1 1 pgPhotoEx :=
  ⟨by decide, c2_like_state_machine pgEx 1 1 pgPhotoEx (by decide)⟩

/-- Claim C3, counterexample: in MemStorage, calling `likePhoto` twice moves
the counter from 0 to 2, not back to 0. -/
theorem c3_counterexample :
    memPhotoLikeCount (memLikePhoto 1 1 (memLikePhoto 1 1 memEx)) 1 = some 2 ∧
    memPhotoLikeCount memEx 1 = some 0 ∧
    ¬(memPhotoLikeCount (memLikePhoto 1 1 (memLikePhoto 1 1 memEx)) 1 =
      memPhotoLikeCount memEx 1) := by
  decide

/-- Claim C3, amended: in the PostgresStorage backend, calling `likePhoto`
twice in a row leaves the photo's observed `likeCount` exactly as it was before
the first call, for every state and every actor/photo pair (including a missing
photo, where both calls throw and the counter stays unobservable).  The claim
as frozen is false for MemStorage, where a double call adds 2
(see `c3_counterexample`). -/
theorem c3_pg_double_toggle_restores_counter (s : PgState) (u p : Nat) :
    pgPhotoLikeCount ((pgLikePhoto u p (pgLikePhoto u p s).1).1) p = pgPhotoLikeCount s p :=
  pgLikePhoto_double s u p

/-- Claim C4, code bug: toggling a like on a photo id with no photo row must
fail with NotFoundError leaving the store unchanged; instead
`PostgresStorage.likePhoto` first inserts the orphan Like row and then throws a
TypeError (reading `likeCount` of `undefined`), and `MemStorage.likePhoto`
silently returns with no error at all. -/
theorem c4_missing_target_behaviour :
    (pgLikePhoto 1 7 pgEx).2 = true ∧
    ((pgLikePhoto 1 7 pgEx).1).likes = [{ userId := 1, photoId := 7, isDeleted := false }] ∧
    ¬((pgLikePhoto 1 7 pgEx).1 = pgEx) ∧
    memLikePhoto 1 7 memEx = memEx := by
  decide

/-- Claim C5, code bug: `PostgresStorage.unfollowUser` decrements with no
existence check and no clamp, so un-following a user with `followerCount = 0`
and no follow row drives the counter to -1, below 0. -/
theorem c5_negative_counter :
    pgUserFollowerCount (pgUnfollowUser 1 2 pgEx).1 2 = some (-1) ∧
    (-1 : Int) < 0 := by
  decide

/-- Claim C6, counterexample: two consecutive `followUser` calls in
PostgresStorage leave `followerCount = 2` (not 0) and the single Follow row
ACTIVE with `isDeleted = false` (not true). -/
theorem c6_counterexample :
    pgUserFollowerCount (pgFollowUser 1 2 (pgFollowUser 1 2 pgEx).1).1 2 = some 2 ∧
    ((pgFollowUser 1 2 (pgFollowUser 1 2 pgEx).1).1).follows =
      [{ followerId := 1, followingId := 2, isDeleted := false }] ∧
    ¬(pgUserFollowerCount (pgFollowUser 1 2 (pgFollowUser 1 2 pgEx).1).1 2 = some 0 ∧
      ((pgFollowUser 1 2 (pgFollowUser 1 2 pgEx).1).1).follows =
        [{ followerId := 1, followingId := 2, isDeleted := true }]) := by
  decide

/-- Claim C6, amended: from a state where F does not follow U and U's
followerCount is 0, two consecutive `PostgresStorage.followUser` calls give
followerCount 0 then 1 then 2 (the second call increments again instead of
toggling off), and exactly one Follow row for the pair exists afterwards with
`isDeleted = false`. -/
theorem c6_follow_twice (s : PgState) (f g : Nat) (u0 : PgUser)
    (hu : s.users.find? (fun x => x.id == g) = some u0)
    (hc : u0.followerCount = 0)
    (hnof : s.follows.countP (isPairFollow f g) = 0) :
    FollowTwiceSpec s f g :=
  pgFollowUser_twice s f g u0 hu hc hnof

/-- Claim C6, witness at a concrete store. -/
theorem c6_witness :
    pgEx.users.find? (fun x => x.id == 2) = some (pgUserEx 2) ∧
    (pgUserEx 2).followerCount = 0 ∧
    pgEx.follows.countP (isPairFollow 1 2) = 0 ∧
    FollowTwiceSpec pgEx 1 2 :=
  ⟨by decide, by decide, by decide,
   c6_follow_twice pgEx 1 2 (pgUserEx 2) (by decide) (by decide) (by decide)⟩

/-- Claim C7, code bug: relationship rows are physically removed —
`MemStorage.unfollowUser` deletes the Follow row from the map, and
`PostgresStorage.unlikeComment` deletes the CommentLike rows; the claim (and
the specification's canonical soft-delete model) says only the flag may
change. -/
theorem c7_rows_physically_deleted :
    (memFollowUser 1 2 memEx).follows = [{ id := 1, followerId := 1, followingId := 2 }] ∧
    (memUnfollowUser 1 2 (memFollowUser 1 2 memEx)).follows = [] ∧
    ((pgLikeComment 1 1 pgEx).1).commentLikes =
      [{ userId := 1, commentId := 1, isDeleted := false }] ∧
    ((pgUnlikeComment 1 1 (pgLikeComment 1 1 pgEx).1).1).commentLikes = [] := by
  decide

/-- Claim C8, counterexample: from corresponding initial states, the same
sequence of two `likePhoto(1, 1)` calls leaves `likeCount = 2` in MemStorage
but `likeCount = 0` in PostgresStorage — the backends are not observationally
equivalent. -/
theorem c8_counterexample :
    memPhotoLikeCount (memLikePhoto 1 1 (memLikePhoto 1 1 memEx)) 1 = some 2 ∧
    pgPhotoLikeCount (pgLikePhoto 1 1 (pgLikePhoto 1 1 pgEx).1).1 1 = some 0 ∧
    ¬((memPhotoLikeCount (memLikePhoto 1 1 (memLikePhoto 1 1 memEx)) 1).map
        (fun n => (n : Int)) =
      pgPhotoLikeCount (pgLikePhoto 1 1 (pgLikePhoto 1 1 pgEx).1).1 1) := by
  decide

/-- Claim C8, amended: the two backends are not observationally equivalent
(see `c8_counterexample`); they do agree on the first toggle-on of a fresh
actor/photo pair: when the photo's counter is `c` in both stores and the
relational store has no Like row for the pair, one `likePhoto` call moves both
observed counters to `c + 1`. -/
theorem c8_first_toggle_agree (ms : MemState) (ps : PgState) (u p : Nat) (c : Nat)
    (hm : memPhotoLikeCount ms p = some c)
    (hp : pgPhotoLikeCount ps p = some ((c : Int)))
    (hno : ps.likes.countP (isPairLike u p) = 0) :
    FirstToggleAgreeSpec ms ps u p c :=
  backends_agree_first_toggle ms ps u p c hm hp hno

/-- Claim C8, witness at the corresponding concrete stores. -/
theorem c8_witness :
    memPhotoLikeCount memEx 1 = some 0 ∧
    pgPhotoLikeCount pgEx 1 = some (((0 : Nat) : Int)) ∧
    pgEx.likes.countP (isPairLike 1 1) = 0 ∧
    FirstToggleAgreeSpec memEx pgEx 1 1 0 :=
  ⟨by decide, by decide, by decide,
   c8_first_toggle_agree memEx pgEx 1 1 0 (by decide) (by decide) (by decide)⟩

/-- Claim C9, code bug: two concurrent `likePhoto` toggle-on calls by the
distinct actors 1 and 2 on photo 1, interleaved so that both perform their
selects before either writes, leave `likeCount = 1` although two ACTIVE Like
rows exist — a lost update; the claim requires the counter to equal 2. -/
theorem c9_lost_update :
    pgPhotoLikeCount (runSched [0, 1, 0, 1, 0, 1] pgEx likeThreadsEx).1 1 = some 1 ∧
    ((runSched [0, 1, 0, 1, 0, 1] pgEx likeThreadsEx).1).likes.countP
      (fun l => l.photoId == 1 && !l.isDeleted) = 2 ∧
    ¬(pgPhotoLikeCount (runSched [0, 1, 0, 1, 0, 1] pgEx likeThreadsEx).1 1 = some 2) := by
  decide

/-- Claim C10, confirmed: in every MemStorage state reachable from the
constructor by any sequence of interface operations, the likes and commentLikes
maps are empty (no operation ever writes them), and consequently
`getLikedUsers` returns the empty list for every photo id. -/
theorem c10_mem_likes_always_empty (ops : List MemOp) :
    (applyMemOps ops memInit).likes = [] ∧
    (applyMemOps ops memInit).commentLikes = [] ∧
    ∀ photoId : Nat, memGetLikedUsers (applyMemOps ops memInit) photoId = [] := by
  have h := applyMemOps_likes_eq ops memInit
  have hl : (applyMemOps ops memInit).likes = [] := h.1
  have hcl : (applyMemOps ops memInit).commentLikes = [] := h.2
  refine ⟨hl, hcl, ?_⟩
  intro photoId
  unfold memGetLikedUsers
  rw [hl]
  rfl

end FitShare
